import Mathlib

/-!
Verification of the SVBRDF estimation core (renderers.py, dataset.py) against
its natural-language specification.  Machine floating-point numbers are
modelled by real numbers; torch tensors are modelled by functions over their
index spaces.  Randomness (the torch uniform_ / normal_ draws) is threaded as
explicit inputs.
-/

namespace SvbrdfEstimation

noncomputable section

/-- A 3-channel (RGB) per-pixel value, indexed by channel. -/
abbrev RGB : Type := Fin 3 → ℝ

/-- A 3-vector (position or direction). -/
structure Vec3 where
  x : ℝ
  y : ℝ
  z : ℝ

instance : Add Vec3 := ⟨fun a b => ⟨a.x + b.x, a.y + b.y, a.z + b.z⟩⟩

instance : Sub Vec3 := ⟨fun a b => ⟨a.x - b.x, a.y - b.y, a.z - b.z⟩⟩

/-- Componentwise scaling of a 3-vector by a scalar. -/
def Vec3.scale (t : ℝ) (a : Vec3) : Vec3 := ⟨t * a.x, t * a.y, t * a.z⟩

/-- Channel access for a 3-vector viewed as a 3-channel buffer. -/
def Vec3.channel (v : Vec3) (i : Fin 3) : ℝ :=
  if (i : ℕ) = 0 then v.x else if (i : ℕ) = 1 then v.y else v.z

/-- renderers.dot_product: sum over the channel dimension of the
componentwise product (for 3-channel direction fields, per pixel). -/
def dot_product (a b : Vec3) : ℝ := a.x * b.x + a.y * b.y + a.z * b.z

/-- renderers.normalize: componentwise division by the Euclidean norm
sqrt(dot_product a a). -/
noncomputable def normalize (a : Vec3) : Vec3 :=
  let s := Real.sqrt (dot_product a a)
  ⟨a.x / s, a.y / s, a.z / s⟩

/-- torch.clamp(x, min=m). -/
def clampMin (x m : ℝ) : ℝ := max x m

/-- torch.clamp(x, min=0, max=1). -/
def clamp01 (x : ℝ) : ℝ := min (max x 0) 1

/-- LocalRenderer.xi: the horizon-visibility step indicator,
(x > 0) * ones_like(x). -/
def xi (x : ℝ) : ℝ := if 0 < x then 1 else 0

/-- LocalRenderer.compute_diffuse_term: kd * diffuse / pi with kd = 1 - ks. -/
noncomputable def compute_diffuse_term (diffuse ks : RGB) : RGB :=
  fun c => (1 - ks c) * diffuse c / Real.pi

/-- The clamped denominator part of the GGX microfacet distribution:
torch.clamp(NH_squared * (alpha_squared + (1 - NH_squared) / NH_squared), min=0.001). -/
def ggx_denominator_part (alpha_squared NH_squared : ℝ) : ℝ :=
  clampMin (NH_squared * (alpha_squared + (1 - NH_squared) / NH_squared)) 0.001

/-- LocalRenderer.compute_microfacet_distribution (GGX), per channel. -/
noncomputable def compute_microfacet_distribution (roughness : RGB) (NH : ℝ) : RGB :=
  fun c =>
    let alpha := roughness c ^ 2
    let alpha_squared := alpha ^ 2
    let NH_squared := NH ^ 2
    alpha_squared * xi NH / (Real.pi * ggx_denominator_part alpha_squared NH_squared ^ 2)

/-- LocalRenderer.compute_fresnel (Schlick approximation), per channel. -/
def compute_fresnel (specular : RGB) (VH : ℝ) : RGB :=
  fun c => specular c + (1 - specular c) * (1 - VH) ^ 5

/-- LocalRenderer.compute_g1 (Smith masking term), per channel. -/
noncomputable def compute_g1 (roughness : RGB) (XH XN : ℝ) : RGB :=
  fun c =>
    let alpha := roughness c ^ 2
    let alpha_squared := alpha ^ 2
    let XN_squared := XN ^ 2
    2 * xi (XH / XN) / (1 + Real.sqrt (1 + alpha_squared * (1 - XN_squared) / XN_squared))

/-- LocalRenderer.compute_geometry: product of the two Smith terms. -/
noncomputable def compute_geometry (roughness : RGB) (VH LH VN LN : ℝ) : RGB :=
  fun c => compute_g1 roughness VH VN c * compute_g1 roughness LH LN c

/-- LocalRenderer.compute_specular_term: returns the specular term and the
Fresnel factor (reused as ks by the diffuse term). -/
noncomputable def compute_specular_term (wi wo normals : Vec3)
    (roughness specular : RGB) : RGB × RGB :=
  let H := normalize (Vec3.scale (1 / 2) (wi + wo))
  let NH := dot_product normals H
  let VH := dot_product wo H
  let LH := dot_product wi H
  let VN := dot_product wo normals
  let LN := dot_product wi normals
  let F := compute_fresnel specular VH
  let G := compute_geometry roughness VH LH VN LN
  let D := compute_microfacet_distribution roughness NH
  (fun c => F c * G c * D c / (4 * VN * LN), F)

/-- LocalRenderer.evaluate_brdf: diffuse term plus specular term. -/
noncomputable def evaluate_brdf (wi wo normals : Vec3)
    (diffuse roughness specular : RGB) : RGB :=
  let st := compute_specular_term wi wo normals roughness specular
  fun c => compute_diffuse_term diffuse st.2 c + st.1 c

/-- A packed 12-channel SVBRDF buffer of square spatial resolution n. -/
abbrev STensor (n : ℕ) : Type := Fin 12 → Fin n → Fin n → ℝ

/-- A 3-channel image of square spatial resolution n. -/
abbrev Image (n : ℕ) : Type := Fin 3 → Fin n → Fin n → ℝ

/-- Modelled from the spec: utils.unpack_svbrdf is not under src; per the
spec the packed channel order is normals(3), diffuse(3), roughness(3),
specular(3).  Normals occupy channels 0..2. -/
def unpack_normals {n : ℕ} (s : STensor n) (r c : Fin n) : Vec3 :=
  ⟨s ⟨0, by omega⟩ r c, s ⟨1, by omega⟩ r c, s ⟨2, by omega⟩ r c⟩

/-- Modelled from the spec: diffuse occupies channels 3..5 of the packed
SVBRDF. -/
def unpack_diffuse {n : ℕ} (s : STensor n) (r c : Fin n) : RGB :=
  fun ch => s ⟨(ch : ℕ) + 3, by have := ch.isLt; omega⟩ r c

/-- Modelled from the spec: roughness occupies channels 6..8 of the packed
SVBRDF. -/
def unpack_roughness {n : ℕ} (s : STensor n) (r c : Fin n) : RGB :=
  fun ch => s ⟨(ch : ℕ) + 6, by have := ch.isLt; omega⟩ r c

/-- Modelled from the spec: specular occupies channels 9..11 of the packed
SVBRDF. -/
def unpack_specular {n : ℕ} (s : STensor n) (r c : Fin n) : RGB :=
  fun ch => s ⟨(ch : ℕ) + 9, by have := ch.isLt; omega⟩ r c

/-- Modelled from the spec: utils.pack_svbrdf is not under src; it
concatenates the four 3-channel buffers in the fixed order normals,
diffuse, roughness, specular along the channel axis. -/
def pack_svbrdf {n : ℕ} (nm df rg sp : Fin 3 → Fin n → Fin n → ℝ) : STensor n :=
  fun k r c =>
    if h3 : (k : ℕ) < 3 then nm ⟨k, h3⟩ r c
    else if h6 : (k : ℕ) < 6 then df ⟨(k : ℕ) - 3, by omega⟩ r c
    else if h9 : (k : ℕ) < 9 then rg ⟨(k : ℕ) - 6, by omega⟩ r c
    else sp ⟨(k : ℕ) - 9, by have := k.isLt; omega⟩ r c

/-- renderers.Camera. -/
structure Camera where
  pos : Vec3

/-- renderers.Light. -/
structure Light where
  pos : Vec3
  color : RGB

/-- renderers.Scene. -/
structure Scene where
  camera : Camera
  light : Light

/-- torch.linspace(a, b, steps) at index i.  For steps = 1 torch returns
the single value a. -/
noncomputable def linspace (a b : ℝ) (steps i : ℕ) : ℝ :=
  if steps ≤ 1 then a else a + i * (b - a) / (steps - 1)

/-- The per-pixel surface coordinate grid built by LocalRenderer.render:
x runs over linspace(-1, 1, n) along columns, y is the negated transpose
(so it runs over linspace(1, -1, n) down the rows), z is 0. -/
noncomputable def surfaceCoord (n : ℕ) (r c : Fin n) : Vec3 :=
  ⟨linspace (-1) 1 n c, -(linspace (-1) 1 n r), 0⟩

/-- The per-pixel view direction field of LocalRenderer.render:
normalize(camera position minus surface coordinate). -/
noncomputable def renderWo (scene : Scene) (n : ℕ) (r c : Fin n) : Vec3 :=
  normalize (scene.camera.pos - surfaceCoord n r c)

/-- The per-pixel light direction field of LocalRenderer.render:
normalize(light position minus surface coordinate). -/
noncomputable def renderWi (scene : Scene) (n : ℕ) (r c : Fin n) : Vec3 :=
  normalize (scene.light.pos - surfaceCoord n r c)

/-- The roughness actually used by LocalRenderer.render: the unpacked
roughness clamped with torch.clamp(roughness, min=0.001). -/
def render_roughness {n : ℕ} (s : STensor n) (r c : Fin n) : RGB :=
  fun ch => clampMin (unpack_roughness s r c ch) 0.001

/-- LocalRenderer.render: evaluate the BRDF per pixel, weigh by light color,
inverse-square falloff and the clamped cosine LN, and clamp to the unit
interval. -/
noncomputable def render (scene : Scene) (n : ℕ) (svbrdf : STensor n) : Image n :=
  fun ch r c =>
    let coords := surfaceCoord n r c
    let wo := renderWo scene n r c
    let normals := unpack_normals svbrdf r c
    let diffuse := unpack_diffuse svbrdf r c
    let roughness := render_roughness svbrdf r c
    let specular := unpack_specular svbrdf r c
    let relative_light_pos := scene.light.pos - coords
    let wi := renderWi scene n r c
    let f := evaluate_brdf wi wo normals diffuse roughness specular
    let LN := clampMin (dot_product wi normals) 0
    let falloff := 1 / Real.sqrt (dot_product relative_light_pos relative_light_pos) ^ 2
    clamp01 (f ch * (scene.light.color ch * falloff) * LN)

/-- SvbrdfDataset.mix, normal projection step: divide all three channels of
the per-pixel normal by torch.max(0.01, normal z-channel). -/
def projected_normal (nv : Vec3) : Vec3 :=
  let m := max 0.01 nv.z
  ⟨nv.x / m, nv.y / m, nv.z / m⟩

/-- SvbrdfDataset.mix, per-pixel normal blending: blend the projected
normals with weights alpha and 1 - alpha, then divide by the square root of
the sum of squares. -/
def mix_normals_pixel (alpha : ℝ) (n0 n1 : Vec3) : Vec3 :=
  let p0 := projected_normal n0
  let p1 := projected_normal n1
  let m := Vec3.scale alpha p0 + Vec3.scale (1 - alpha) p1
  let s := Real.sqrt (m.x ^ 2 + m.y ^ 2 + m.z ^ 2)
  ⟨m.x / s, m.y / s, m.z / s⟩

/-- SvbrdfDataset.mix: unpack both materials, blend normals in projected
space with renormalization, blend diffuse, roughness and specular linearly,
and re-pack.  The drawn blend factor alpha (uniform on 0.1..0.9) is an
explicit input. -/
def mix {n : ℕ} (alpha : ℝ) (s0 s1 : STensor n) : STensor n :=
  pack_svbrdf
    (fun ch r c =>
      (mix_normals_pixel alpha (unpack_normals s0 r c) (unpack_normals s1 r c)).channel ch)
    (fun ch r c => alpha * unpack_diffuse s0 r c ch + (1 - alpha) * unpack_diffuse s1 r c ch)
    (fun ch r c => alpha * unpack_roughness s0 r c ch + (1 - alpha) * unpack_roughness s1 r c ch)
    (fun ch r c => alpha * unpack_specular s0 r c ch + (1 - alpha) * unpack_specular s1 r c ch)

/-- Model of a single draw of the torch method Tensor.uniform_(a, b): the value
a + u * (b - a) for a unit draw u in the unit interval (the random engine is
threaded explicitly). -/
def uniformDraw (a b u : ℝ) : ℝ := a + u * (b - a)

/-- The fixed light distance constant of SvbrdfDataset.getitem. -/
def fixed_light_distance : ℝ := 2.197

/-- The fixed view distance constant of SvbrdfDataset.getitem. -/
def fixed_view_distance : ℝ := 2.75

/-- The first generated light pose of SvbrdfDataset.getitem:
(x, y) drawn uniformly from the square -0.75..0.75, z set to
ones(1) * fixed_light_distance. -/
def first_light_pose (u1 u2 : ℝ) : Vec3 :=
  ⟨uniformDraw (-0.75) 0.75 u1, uniformDraw (-0.75) 0.75 u2, 1 * fixed_light_distance⟩

/-- The first entry of the view_distance tensor of SvbrdfDataset.getitem:
drawn uniformly from 0.25..2.75 when augmentation is enabled, otherwise
ones * fixed_view_distance. -/
def view_distance_first (use_augmentation : Bool) (u : ℝ) : ℝ :=
  if use_augmentation then uniformDraw 0.25 2.75 u else 1 * fixed_view_distance

/-- The first generated view pose of SvbrdfDataset.getitem:
(x, y) drawn uniformly from the square -0.25..0.25, z set to the first
entry of the view_distance tensor. -/
def first_view_pose (use_augmentation : Bool) (u1 u2 u3 : ℝ) : Vec3 :=
  ⟨uniformDraw (-0.25) 0.25 u1, uniformDraw (-0.25) 0.25 u2,
    view_distance_first use_augmentation u3⟩

/-- The generated image count of SvbrdfDataset.getitem:
used_input_image_count minus the number of available input images
(python integer subtraction, so possibly negative). -/
def generated_input_image_count {n : ℕ} (used : ℕ) (inputs : List (Image n)) : ℤ :=
  (used : ℤ) - inputs.length

/-- The synthetic-image loop body of SvbrdfDataset.getitem: each generated
image is a render of the SVBRDF of the sample under the i-th sampled scene, plus
additive sensor noise, clamped back to the unit interval.  The sampled
scenes and drawn noise images are explicit inputs (they are random draws in
the code). -/
def generate_inputs {n : ℕ} (scene_of : ℕ → Scene) (noise : ℕ → Image n)
    (svbrdf : STensor n) (count : ℕ) : List (Image n) :=
  (List.range count).map (fun i => fun ch r c =>
    clamp01 (render (scene_of i) n svbrdf ch r c + noise i ch r c))

/-- The input-image assembly of SvbrdfDataset.getitem: when the generated
count is positive, append that many synthetic renderings after the available
input images; otherwise the generation step is skipped entirely. -/
def getitem_inputs {n : ℕ} (used : ℕ) (inputs : List (Image n))
    (scene_of : ℕ → Scene) (noise : ℕ → Image n) (svbrdf : STensor n) :
    List (Image n) :=
  if 0 < generated_input_image_count used inputs then
    inputs ++ generate_inputs scene_of noise svbrdf
      (generated_input_image_count used inputs).toNat
  else inputs

/-- A torch buffer, indexed by channel, row and column (indices outside the
allocated extent read as 0). -/
abbrev Buffer : Type := ℕ → ℕ → ℕ → ℝ

/-- The allocation store of torch buffers: out-of-place operations append
new buffers, in-place operations would overwrite existing entries. -/
abbrev TorchStore : Type := List Buffer

/-- LocalRenderer.render as a store transformer: read the packed SVBRDF
buffer at index i, compute the output image using only out-of-place
operations (torch.clamp, torch.cat, arithmetic), and allocate the result as
a fresh buffer at the end of the store.  Returns the new store and the index
of the output buffer. -/
def renderOp (scene : Scene) (n : ℕ) (store : TorchStore) (i : ℕ) :
    TorchStore × ℕ :=
  let inp : Buffer := store.getD i (fun _ _ _ => 0)
  let svbrdf : STensor n := fun k r c => inp k r c
  let out : Buffer := fun ch r c =>
    if h : ch < 3 ∧ r < n ∧ c < n then
      render scene n svbrdf ⟨ch, h.1⟩ ⟨r, h.2.1⟩ ⟨c, h.2.2⟩
    else 0
  (store ++ [out], store.length)

/-- SvbrdfDataset.read_sample, input-image slice: with
r = min(input_image_count, used_input_image_count), return the slice
image_parts[(input_image_count - r) : input_image_count] of the list of
horizontal image parts. -/
def read_sample_input_images {α : Type} (image_parts : List α)
    (input_image_count used_input_image_count : ℕ) : List α :=
  let read_input_image_count := min input_image_count used_input_image_count
  (image_parts.take input_image_count).drop
    (input_image_count - read_input_image_count)

/-- Modelled from the spec: the BRDF evaluation written as the single
closed-form expression the specification states (Fresnel reused by the
diffuse term, GGX distribution with clamped denominator part, separable
Smith geometry, specular division by 4 VN LN), to be compared with the
composition of helper functions in the code. -/
def brdf_formula_spec (wi wo normals : Vec3) (diffuse roughness specular : RGB) : RGB :=
  fun c =>
    let H := normalize (Vec3.scale (1 / 2) (wi + wo))
    let NH := dot_product normals H
    let VH := dot_product wo H
    let LH := dot_product wi H
    let VN := dot_product wo normals
    let LN := dot_product wi normals
    let F := specular c + (1 - specular c) * (1 - VH) ^ 5
    let alpha := roughness c ^ 2
    let D := alpha ^ 2 * xi NH /
      (Real.pi * max (NH ^ 2 * (alpha ^ 2 + (1 - NH ^ 2) / NH ^ 2)) 0.001 ^ 2)
    let G1V := 2 * xi (VH / VN) / (1 + Real.sqrt (1 + alpha ^ 2 * (1 - VN ^ 2) / VN ^ 2))
    let G1L := 2 * xi (LH / LN) / (1 + Real.sqrt (1 + alpha ^ 2 * (1 - LN ^ 2) / LN ^ 2))
    let sp := F * (G1V * G1L) * D / (4 * VN * LN)
    let df := (1 - F) * diffuse c / Real.pi
    df + sp

/-- Modelled from the spec: a variant of compute_g1 in which, as the
specification asserts of the code, every division has its denominator
clamped to a floor of 0.001 (both the XN in the step-function argument and
the XN squared in the square root). -/
def compute_g1_guarded (roughness : RGB) (XH XN : ℝ) : RGB :=
  fun c =>
    let alpha := roughness c ^ 2
    let alpha_squared := alpha ^ 2
    let XN_squared := max (XN ^ 2) 0.001
    2 * xi (XH / max XN 0.001) /
      (1 + Real.sqrt (1 + alpha_squared * (1 - XN ^ 2) / XN_squared))

/-- A constant all-ones 3-channel value (e.g. roughness one). -/
def onesRGB : RGB := fun _ => 1

/-- A concrete test scene: camera above the patch, light at (-1, 1, 1) with
intensity 30 per channel. -/
def cexScene : Scene := ⟨⟨⟨0, 0, 2⟩⟩, ⟨⟨-1, 1, 1⟩, fun _ => 30⟩⟩

/-- A concrete 1-by-1 SVBRDF whose per-pixel normal is the downward vector
(0, 0, -1) and whose other channels are all 0. -/
def cexSvbrdfDown : STensor 1 := fun k _ _ => if (k : ℕ) = 2 then -1 else 0

/-- A concrete 1-by-1 SVBRDF whose per-pixel normal is the horizontal unit
vector (1, 0, 0) and whose other channels are all 0. -/
def cexNormalPlusX : STensor 1 := fun k _ _ => if (k : ℕ) = 0 then 1 else 0

/-- A concrete 1-by-1 SVBRDF whose per-pixel normal is the horizontal unit
vector (-1, 0, 0) and whose other channels are all 0. -/
def cexNormalMinusX : STensor 1 := fun k _ _ => if (k : ℕ) = 0 then -1 else 0

/-- A concrete 1-by-1 SVBRDF whose per-pixel normal is the unit vector
(0, 0, 1) and whose other channels are all 0. -/
def cexUnitNormalSvbrdf : STensor 1 := fun k _ _ => if (k : ℕ) = 2 then 1 else 0

/-- The all-zero 1-by-1 image. -/
def zeroImage1 : Image 1 := fun _ _ _ => 0

/-! Helper lemmas. -/

theorem Vec3.add_def (a b : Vec3) : a + b = ⟨a.x + b.x, a.y + b.y, a.z + b.z⟩ := rfl

theorem Vec3.channel_zero (v : Vec3) : v.channel 0 = v.x := rfl

theorem Vec3.channel_one (v : Vec3) : v.channel 1 = v.y := rfl

theorem Vec3.channel_two (v : Vec3) : v.channel 2 = v.z := rfl

theorem Vec3.channel_eta (v : Vec3) :
    (⟨v.channel 0, v.channel 1, v.channel 2⟩ : Vec3) = v := rfl

theorem Vec3.sub_def (a b : Vec3) : a - b = ⟨a.x - b.x, a.y - b.y, a.z - b.z⟩ := rfl

theorem clamp01_nonneg (x : ℝ) : 0 ≤ clamp01 x :=
  le_min (le_max_right x 0) zero_le_one

theorem clamp01_le_one (x : ℝ) : clamp01 x ≤ 1 := min_le_right _ _

theorem unpack_normals_pack {n : ℕ} (nm df rg sp : Fin 3 → Fin n → Fin n → ℝ)
    (r c : Fin n) :
    unpack_normals (pack_svbrdf nm df rg sp) r c = ⟨nm 0 r c, nm 1 r c, nm 2 r c⟩ := rfl

theorem unpack_diffuse_pack {n : ℕ} (nm df rg sp : Fin 3 → Fin n → Fin n → ℝ)
    (r c : Fin n) (ch : Fin 3) :
    unpack_diffuse (pack_svbrdf nm df rg sp) r c ch = df ch r c := by
  rcases ch with ⟨v, hv⟩
  interval_cases v <;> rfl

theorem unpack_roughness_pack {n : ℕ} (nm df rg sp : Fin 3 → Fin n → Fin n → ℝ)
    (r c : Fin n) (ch : Fin 3) :
    unpack_roughness (pack_svbrdf nm df rg sp) r c ch = rg ch r c := by
  rcases ch with ⟨v, hv⟩
  interval_cases v <;> rfl

theorem unpack_specular_pack {n : ℕ} (nm df rg sp : Fin 3 → Fin n → Fin n → ℝ)
    (r c : Fin n) (ch : Fin 3) :
    unpack_specular (pack_svbrdf nm df rg sp) r c ch = sp ch r c := by
  rcases ch with ⟨v, hv⟩
  interval_cases v <;> rfl

/-! Claim theorems. -/

/-- C1: for every scene (camera position, light position, light color) and
every 12-channel SVBRDF input, LocalRenderer.render returns an image with
3 channels and the same square spatial resolution n as the input (this is
the type of render), and every output value lies in the unit interval. -/
theorem render_output_in_unit_interval (scene : Scene) (n : ℕ)
    (svbrdf : STensor n) (ch : Fin 3) (r c : Fin n) :
    0 ≤ render scene n svbrdf ch r c ∧ render scene n svbrdf ch r c ≤ 1 :=
  ⟨clamp01_nonneg _, clamp01_le_one _⟩

/-- C4: at every pixel where the dot product of the light direction wi with
the surface normal is at most zero, the rendered radiance at that pixel is
zero in all 3 channels, whatever the material values there. -/
theorem render_horizon_zeroing (scene : Scene) (n : ℕ) (svbrdf : STensor n)
    (r c : Fin n)
    (h : dot_product (renderWi scene n r c) (unpack_normals svbrdf r c) ≤ 0) :
    ∀ ch : Fin 3, render scene n svbrdf ch r c = 0 := by
  intro ch
  show clamp01 _ = 0
  rw [show clampMin (dot_product (renderWi scene n r c) (unpack_normals svbrdf r c)) 0
      = 0 from max_eq_right h]
  rw [mul_zero]
  simp [clamp01]

/-- Witness for C4: a concrete 1-by-1 scene where the light direction at the
single pixel is (0, 0, 1) and the stored normal is (0, 0, -1); the
hypothesis holds and the rendered pixel is zero in channel 0. -/
theorem render_horizon_zeroing_witness :
    dot_product (renderWi cexScene 1 0 0) (unpack_normals cexSvbrdfDown 0 0) ≤ 0 ∧
    render cexScene 1 cexSvbrdfDown 0 0 0 = 0 := by
  have hd : dot_product (renderWi cexScene 1 0 0) (unpack_normals cexSvbrdfDown 0 0) ≤ 0 := by
    simp [renderWi, surfaceCoord, linspace, normalize, dot_product, Vec3.sub_def,
      cexScene, cexSvbrdfDown, unpack_normals]
  exact ⟨hd, render_horizon_zeroing cexScene 1 cexSvbrdfDown 0 0 hd 0⟩

/-- C2 counterexample: at roughness 1, XH = 1, XN = 0, the function
compute_g1 divides by the unclamped XN (and XN squared), yielding 0, while
the variant whose denominators are floored at 0.001, as the claim asserts of
every division, yields a positive value; so not every denominator is
clamped. -/
theorem compute_g1_unguarded_cex :
    compute_g1 onesRGB 1 0 0 ≠ compute_g1_guarded onesRGB 1 0 0 ∧
    compute_g1 onesRGB 1 0 0 = 0 := by
  have hcode : compute_g1 onesRGB 1 0 0 = 0 := by
    simp [compute_g1, xi, onesRGB]
  have hpos : 0 < compute_g1_guarded onesRGB 1 0 0 := by
    unfold compute_g1_guarded xi onesRGB
    rw [if_pos (by norm_num)]
    have hs : 0 ≤ Real.sqrt (1 + 1 ^ 2 ^ 2 * (1 - (0:ℝ) ^ 2) / max ((0:ℝ) ^ 2) 0.001) :=
      Real.sqrt_nonneg _
    positivity
  exact ⟨by rw [hcode]; exact fun h => absurd h.symm (ne_of_gt hpos), hcode⟩

/-- C2 amended: only the roughness used by render and the GGX denominator
part are clamped to the floor 0.001; the divisions by XN, XN squared,
NH squared and 4 VN LN are not guarded (the counterexample), and in the
real-valued model a degenerate denominator yields a junk value rather than
raising an error.  This theorem proves the floors that do hold. -/
theorem clamped_floors_hold :
    (∀ (n : ℕ) (s : STensor n) (r c : Fin n) (ch : Fin 3),
      0.001 ≤ render_roughness s r c ch) ∧
    ∀ alpha_squared NH_squared : ℝ,
      0.001 ≤ ggx_denominator_part alpha_squared NH_squared :=
  ⟨fun _ _ _ _ _ => le_max_right _ _, fun _ _ => le_max_right _ _⟩

theorem normalize_sum_sq (mx my mz : ℝ) (h : 0 < mx ^ 2 + my ^ 2 + mz ^ 2) :
    (mx / Real.sqrt (mx ^ 2 + my ^ 2 + mz ^ 2)) ^ 2 +
      (my / Real.sqrt (mx ^ 2 + my ^ 2 + mz ^ 2)) ^ 2 +
      (mz / Real.sqrt (mx ^ 2 + my ^ 2 + mz ^ 2)) ^ 2 = 1 := by
  have hsq : Real.sqrt (mx ^ 2 + my ^ 2 + mz ^ 2) ^ 2 = mx ^ 2 + my ^ 2 + mz ^ 2 :=
    Real.sq_sqrt h.le
  have hrw : (mx / Real.sqrt (mx ^ 2 + my ^ 2 + mz ^ 2)) ^ 2 +
      (my / Real.sqrt (mx ^ 2 + my ^ 2 + mz ^ 2)) ^ 2 +
      (mz / Real.sqrt (mx ^ 2 + my ^ 2 + mz ^ 2)) ^ 2 =
      (mx ^ 2 + my ^ 2 + mz ^ 2) / Real.sqrt (mx ^ 2 + my ^ 2 + mz ^ 2) ^ 2 := by
    ring
  rw [hrw, hsq, div_self (ne_of_gt h)]

theorem projected_normal_z_pos (nv : Vec3) (h : 0 < nv.z) :
    0 < (projected_normal nv).z :=
  div_pos h (lt_of_lt_of_le (by norm_num) (le_max_left 0.01 nv.z))

theorem mix_normals_pixel_norm (alpha : ℝ) (n0 n1 : Vec3)
    (hz : 0 < alpha * (projected_normal n0).z + (1 - alpha) * (projected_normal n1).z) :
    (mix_normals_pixel alpha n0 n1).x ^ 2 + (mix_normals_pixel alpha n0 n1).y ^ 2 +
      (mix_normals_pixel alpha n0 n1).z ^ 2 = 1 := by
  have hq : 0 < (alpha * (projected_normal n0).x + (1 - alpha) * (projected_normal n1).x) ^ 2
      + ((alpha * (projected_normal n0).y + (1 - alpha) * (projected_normal n1).y) ^ 2
      + (alpha * (projected_normal n0).z + (1 - alpha) * (projected_normal n1).z) ^ 2) := by
    have h3 := pow_pos hz 2
    have h1 := sq_nonneg (alpha * (projected_normal n0).x + (1 - alpha) * (projected_normal n1).x)
    have h2 := sq_nonneg (alpha * (projected_normal n0).y + (1 - alpha) * (projected_normal n1).y)
    linarith
  simp only [mix_normals_pixel, Vec3.scale, Vec3.add_def]
  exact normalize_sum_sq _ _ _ (by linarith [hq])

theorem mix_normals_pixel_self (alpha : ℝ) (nv : Vec3)
    (h : dot_product nv nv = 1) : mix_normals_pixel alpha nv nv = nv := by
  obtain ⟨nx, ny, nz⟩ := nv
  simp only [dot_product] at h
  have hM : (0 : ℝ) < max 0.01 nz := lt_of_lt_of_le (by norm_num) (le_max_left _ _)
  have hMne : max (0.01 : ℝ) nz ≠ 0 := ne_of_gt hM
  have hcomb : ∀ t : ℝ, alpha * t + (1 - alpha) * t = t := fun t => by ring
  simp only [mix_normals_pixel, projected_normal, Vec3.scale, Vec3.add_def, hcomb]
  have hq : (nx / max 0.01 nz) ^ 2 + (ny / max 0.01 nz) ^ 2 + (nz / max 0.01 nz) ^ 2
      = (1 / max 0.01 nz) ^ 2 := by
    field_simp
    nlinarith [h]
  rw [hq, Real.sqrt_sq (by positivity)]
  simp only [Vec3.mk.injEq]
  refine ⟨?_, ?_, ?_⟩ <;> field_simp

/-- C5 counterexample: mixing a material whose per-pixel normal is (1,0,0)
with one whose normal is (-1,0,0) at the drawn blend factor 1/2 gives a
blended projected normal of zero, so the renormalized normal is the zero
vector and its Euclidean length is 0, not 1. -/
theorem mix_normals_not_unit_cex :
    Real.sqrt ((unpack_normals (mix (1/2) cexNormalPlusX cexNormalMinusX) 0 0).x ^ 2 +
      (unpack_normals (mix (1/2) cexNormalPlusX cexNormalMinusX) 0 0).y ^ 2 +
      (unpack_normals (mix (1/2) cexNormalPlusX cexNormalMinusX) 0 0).z ^ 2) ≠ 1 := by
  have hmax : max (0.01 : ℝ) 0 = 0.01 := max_eq_left (by norm_num)
  have h : unpack_normals (mix ((1:ℝ)/2) cexNormalPlusX cexNormalMinusX) 0 0 = ⟨0, 0, 0⟩ := by
    rw [mix, unpack_normals_pack]
    show (⟨(mix_normals_pixel _ _ _).channel 0, (mix_normals_pixel _ _ _).channel 1,
      (mix_normals_pixel _ _ _).channel 2⟩ : Vec3) = _
    simp only [mix_normals_pixel, projected_normal, unpack_normals, cexNormalPlusX,
      cexNormalMinusX, Vec3.scale, Vec3.add_def, Vec3.channel]
    norm_num
  rw [h]
  norm_num

/-- C5 amended: for every pair of SVBRDF inputs whose per-pixel normals
have positive z component (which decoded upper-hemisphere normals do) and
every drawn blend factor in 0.1..0.9, the normals of the mixed SVBRDF have
Euclidean length exactly 1 at every pixel; for arbitrary inputs the blended
projected normal can vanish and the renormalized normal then has length 0
(the counterexample). -/
theorem mix_normals_unit_length {n : ℕ} (alpha : ℝ) (s0 s1 : STensor n)
    (ha1 : 0.1 ≤ alpha) (ha2 : alpha ≤ 0.9)
    (hz0 : ∀ r c : Fin n, 0 < (unpack_normals s0 r c).z)
    (hz1 : ∀ r c : Fin n, 0 < (unpack_normals s1 r c).z)
    (r c : Fin n) :
    Real.sqrt ((unpack_normals (mix alpha s0 s1) r c).x ^ 2 +
      (unpack_normals (mix alpha s0 s1) r c).y ^ 2 +
      (unpack_normals (mix alpha s0 s1) r c).z ^ 2) = 1 := by
  have hmix : unpack_normals (mix alpha s0 s1) r c
      = mix_normals_pixel alpha (unpack_normals s0 r c) (unpack_normals s1 r c) := by
    rw [mix, unpack_normals_pack, Vec3.channel_eta]
  rw [hmix]
  have hp0 := projected_normal_z_pos _ (hz0 r c)
  have hp1 := projected_normal_z_pos _ (hz1 r c)
  have hz : 0 < alpha * (projected_normal (unpack_normals s0 r c)).z
      + (1 - alpha) * (projected_normal (unpack_normals s1 r c)).z := by
    have := mul_pos (show (0:ℝ) < alpha by linarith) hp0
    have := mul_pos (show (0:ℝ) < 1 - alpha by linarith) hp1
    linarith
  rw [mix_normals_pixel_norm alpha _ _ hz, Real.sqrt_one]

/-- Witness for C5: mixing the unit-normal material with itself at blend
factor 1/2 yields unit-length normals at the single pixel. -/
theorem mix_normals_unit_length_witness :
    (0.1 : ℝ) ≤ 1/2 ∧
    Real.sqrt ((unpack_normals (mix (1/2) cexUnitNormalSvbrdf cexUnitNormalSvbrdf) 0 0).x ^ 2 +
      (unpack_normals (mix (1/2) cexUnitNormalSvbrdf cexUnitNormalSvbrdf) 0 0).y ^ 2 +
      (unpack_normals (mix (1/2) cexUnitNormalSvbrdf cexUnitNormalSvbrdf) 0 0).z ^ 2) = 1 :=
  ⟨by norm_num,
    mix_normals_unit_length (1/2) cexUnitNormalSvbrdf cexUnitNormalSvbrdf
      (by norm_num) (by norm_num)
      (fun r c => by simp [unpack_normals, cexUnitNormalSvbrdf])
      (fun r c => by simp [unpack_normals, cexUnitNormalSvbrdf]) 0 0⟩

/-- C7: mixing a material with itself returns the same material in all four
channel groups, for any drawn blend factor, provided its normals are unit
length (as decoded normals are); exact equality holds in the real model. -/
theorem mix_self_identity {n : ℕ} (alpha : ℝ) (s : STensor n)
    (ha1 : 0.1 ≤ alpha) (ha2 : alpha ≤ 0.9)
    (hunit : ∀ r c : Fin n,
      dot_product (unpack_normals s r c) (unpack_normals s r c) = 1) :
    mix alpha s s = s := by
  funext k r c
  have hpix := mix_normals_pixel_self alpha (unpack_normals s r c) (hunit r c)
  have hx : (mix_normals_pixel alpha (unpack_normals s r c) (unpack_normals s r c)).x
      = s ⟨0, by omega⟩ r c := by rw [hpix]; rfl
  have hy : (mix_normals_pixel alpha (unpack_normals s r c) (unpack_normals s r c)).y
      = s ⟨1, by omega⟩ r c := by rw [hpix]; rfl
  have hz2 : (mix_normals_pixel alpha (unpack_normals s r c) (unpack_normals s r c)).z
      = s ⟨2, by omega⟩ r c := by rw [hpix]; rfl
  unfold mix pack_svbrdf
  rcases k with ⟨kv, hk⟩
  interval_cases kv <;>
    simp [Vec3.channel, unpack_diffuse, unpack_roughness, unpack_specular,
      hx, hy, hz2] <;>
    ring

/-- Witness for C7: mixing the concrete unit-normal material with itself at
blend factor 1/2 returns it unchanged. -/
theorem mix_self_identity_witness :
    mix (1/2) cexUnitNormalSvbrdf cexUnitNormalSvbrdf = cexUnitNormalSvbrdf :=
  mix_self_identity (1/2) cexUnitNormalSvbrdf (by norm_num) (by norm_num)
    (fun r c => by simp [dot_product, unpack_normals, cexUnitNormalSvbrdf])

/-- C3: evaluate_brdf computes exactly the closed-form Cook-Torrance
expression stated by the specification: diff + spec with the Fresnel term
reused in the diffuse term, the GGX distribution with clamped denominator
part, the separable Smith geometry term and the 4 VN LN specular
denominator. -/
theorem evaluate_brdf_eq_spec_formula (wi wo normals : Vec3)
    (diffuse roughness specular : RGB) (c : Fin 3) :
    evaluate_brdf wi wo normals diffuse roughness specular c =
      brdf_formula_spec wi wo normals diffuse roughness specular c := by
  simp only [evaluate_brdf, compute_specular_term, compute_diffuse_term,
    compute_fresnel, compute_geometry, compute_g1,
    compute_microfacet_distribution, ggx_denominator_part, clampMin,
    brdf_formula_spec]

theorem uniformDraw_bounds (a b u : ℝ) (hu0 : 0 ≤ u) (hu1 : u ≤ 1) (hab : a ≤ b) :
    a ≤ uniformDraw a b u ∧ uniformDraw a b u ≤ b := by
  unfold uniformDraw
  constructor <;> nlinarith

/-- C6 counterexample: with augmentation enabled and the unit draw 0 for
the view distance, the first sampled view position has z-coordinate 0.25,
not the fixed distance 2.75; so the first view z is not fixed in every
execution of the generation path. -/
theorem first_view_pose_z_cex :
    (first_view_pose true 0 0 0).z ≠ fixed_view_distance := by
  simp only [first_view_pose, view_distance_first, if_pos, uniformDraw,
    fixed_view_distance]
  norm_num

/-- C6 amended: the first sampled light position always has x and y in the
square -0.75..0.75 and z exactly 2.197; the first sampled view position has
x and y in the square -0.25..0.25 and z exactly 2.75 when augmentation is
disabled, while with augmentation enabled its z is drawn from 0.25..2.75
(the counterexample shows it then differs from 2.75). -/
theorem first_pose_sampling_bounds (aug : Bool) (u1 u2 v1 v2 v3 : ℝ)
    (hu1 : 0 ≤ u1 ∧ u1 ≤ 1) (hu2 : 0 ≤ u2 ∧ u2 ≤ 1)
    (hv1 : 0 ≤ v1 ∧ v1 ≤ 1) (hv2 : 0 ≤ v2 ∧ v2 ≤ 1)
    (hv3 : 0 ≤ v3 ∧ v3 ≤ 1) :
    (-0.75 ≤ (first_light_pose u1 u2).x ∧ (first_light_pose u1 u2).x ≤ 0.75) ∧
    (-0.75 ≤ (first_light_pose u1 u2).y ∧ (first_light_pose u1 u2).y ≤ 0.75) ∧
    (first_light_pose u1 u2).z = 2.197 ∧
    (-0.25 ≤ (first_view_pose aug v1 v2 v3).x ∧ (first_view_pose aug v1 v2 v3).x ≤ 0.25) ∧
    (-0.25 ≤ (first_view_pose aug v1 v2 v3).y ∧ (first_view_pose aug v1 v2 v3).y ≤ 0.25) ∧
    (if aug then 0.25 ≤ (first_view_pose aug v1 v2 v3).z ∧
        (first_view_pose aug v1 v2 v3).z ≤ 2.75
      else (first_view_pose aug v1 v2 v3).z = 2.75) := by
  refine ⟨?_, ?_, ?_, ?_, ?_, ?_⟩
  · exact uniformDraw_bounds _ _ _ hu1.1 hu1.2 (by norm_num)
  · exact uniformDraw_bounds _ _ _ hu2.1 hu2.2 (by norm_num)
  · show 1 * fixed_light_distance = 2.197
    norm_num [fixed_light_distance]
  · exact uniformDraw_bounds _ _ _ hv1.1 hv1.2 (by norm_num)
  · exact uniformDraw_bounds _ _ _ hv2.1 hv2.2 (by norm_num)
  · cases aug with
    | false =>
        show (1 : ℝ) * fixed_view_distance = 2.75
        norm_num [fixed_view_distance]
    | true =>
        show 0.25 ≤ uniformDraw 0.25 2.75 v3 ∧ uniformDraw 0.25 2.75 v3 ≤ 2.75
        exact uniformDraw_bounds _ _ _ hv3.1 hv3.2 (by norm_num)

/-- Witness for C6: with augmentation disabled and all unit draws 1/2, the
first light pose has z exactly 2.197 and coordinates in bounds, and the
first view pose has z exactly 2.75. -/
theorem first_pose_sampling_bounds_witness :
    (-0.75 ≤ (first_light_pose (1/2) (1/2)).x ∧ (first_light_pose (1/2) (1/2)).x ≤ 0.75) ∧
    (-0.75 ≤ (first_light_pose (1/2) (1/2)).y ∧ (first_light_pose (1/2) (1/2)).y ≤ 0.75) ∧
    (first_light_pose (1/2) (1/2)).z = 2.197 ∧
    (-0.25 ≤ (first_view_pose false (1/2) (1/2) (1/2)).x ∧
      (first_view_pose false (1/2) (1/2) (1/2)).x ≤ 0.25) ∧
    (-0.25 ≤ (first_view_pose false (1/2) (1/2) (1/2)).y ∧
      (first_view_pose false (1/2) (1/2) (1/2)).y ≤ 0.25) ∧
    (if false then 0.25 ≤ (first_view_pose false (1/2) (1/2) (1/2)).z ∧
        (first_view_pose false (1/2) (1/2) (1/2)).z ≤ 2.75
      else (first_view_pose false (1/2) (1/2) (1/2)).z = 2.75) :=
  first_pose_sampling_bounds false (1/2) (1/2) (1/2) (1/2) (1/2)
    (by norm_num) (by norm_num) (by norm_num) (by norm_num) (by norm_num)

/-- C8: when the requested used image count minus the number of available
input images is zero or negative, the generation step of getitem is a
no-op: no synthetic image is rendered, no error occurs, and the available
input images are returned unchanged. -/
theorem getitem_no_generation {n : ℕ} (used : ℕ) (inputs : List (Image n))
    (scene_of : ℕ → Scene) (noise : ℕ → Image n) (svbrdf : STensor n)
    (h : generated_input_image_count used inputs ≤ 0) :
    getitem_inputs used inputs scene_of noise svbrdf = inputs := by
  unfold getitem_inputs
  rw [if_neg (not_lt.mpr h)]

/-- Witness for C8: requesting 1 used image when 2 input images are
available generates nothing and returns the two images unchanged. -/
theorem getitem_no_generation_witness :
    generated_input_image_count 1 [zeroImage1, zeroImage1] ≤ 0 ∧
    getitem_inputs 1 [zeroImage1, zeroImage1] (fun _ => cexScene)
      (fun _ => zeroImage1) cexUnitNormalSvbrdf = [zeroImage1, zeroImage1] := by
  have h : generated_input_image_count 1 [zeroImage1, zeroImage1] ≤ 0 := by
    simp [generated_input_image_count]
  exact ⟨h, getitem_no_generation 1 [zeroImage1, zeroImage1] (fun _ => cexScene)
    (fun _ => zeroImage1) cexUnitNormalSvbrdf h⟩

/-- C9: render consumes the input SVBRDF buffer read-only.  In the store
model of the torch buffers (the code uses only out-of-place operations; in
particular the roughness clamp is torch.clamp, which allocates), render
leaves every pre-existing buffer of the store unchanged and its only effect
is appending the single output image buffer. -/
theorem renderOp_preserves_store (scene : Scene) (n : ℕ) (store : TorchStore)
    (i : ℕ) :
    (renderOp scene n store i).1.take store.length = store ∧
    (renderOp scene n store i).1.length = store.length + 1 := by
  unfold renderOp
  exact ⟨List.take_left store _, by simp⟩

/-- C10: read_sample returns the last min(input count, used count) input
image parts, those immediately preceding the material maps in the file:
the j-th returned part is the part at index (input count - r) + j of the
full part list, where r = min(input count, used count). -/
theorem read_sample_takes_last_inputs {α : Type} (image_parts : List α)
    (input_image_count used : ℕ)
    (hle : input_image_count ≤ image_parts.length) :
    (read_sample_input_images image_parts input_image_count used).length
        = min input_image_count used ∧
    ∀ j, j < min input_image_count used →
      (read_sample_input_images image_parts input_image_count used).get? j
        = image_parts.get? (input_image_count - min input_image_count used + j) := by
  constructor
  · unfold read_sample_input_images
    simp only [List.length_drop, List.length_take]
    omega
  · intro j hj
    unfold read_sample_input_images
    rw [List.get?_drop]
    rw [List.get?_take (by omega)]

/-- Witness for C10: with 7 parts, 3 input images in the file and 2 used,
the returned parts are those at indices 1 and 2 (the last two input
images), namely 20 and 30. -/
theorem read_sample_takes_last_inputs_witness :
    read_sample_input_images ([10, 20, 30, 40, 50, 60, 70] : List ℕ) 3 2 = [20, 30] ∧
    ((read_sample_input_images ([10, 20, 30, 40, 50, 60, 70] : List ℕ) 3 2).length
        = min 3 2 ∧
      ∀ j, j < min 3 2 →
        (read_sample_input_images ([10, 20, 30, 40, 50, 60, 70] : List ℕ) 3 2).get? j
          = ([10, 20, 30, 40, 50, 60, 70] : List ℕ).get? (3 - min 3 2 + j)) :=
  ⟨rfl, read_sample_takes_last_inputs [10, 20, 30, 40, 50, 60, 70] 3 2 (by norm_num)⟩

end

end SvbrdfEstimation
